import Mathlib

/-!
Shallow embedding of the graph synchronization engine of the `adamize`
repository (directory `scripts/`): the MCP tool-call clients
(`mcp_client.py`, `build_project_memory.py`), the content readers
(`read_file_safe`, `get_file_content`), the file inclusion policy
(`should_include_file`), the directory walker (`index_directory`,
`index_project`, `main`) and the batch synchronizer
(`build_memory_graph.py` / `neo4j_memory_builder.py`).

Modelling conventions:
* Python strings are Lean `String`s (which are lists of characters);
  file content whose length matters is carried as `List Char`.
* Filesystem paths are lists of slash-free path segments, rooted at `/`
  (all paths the scripts build are absolute).  `os.path.join` appends a
  segment, `os.path.basename` is the last segment, and the substring test
  `"/<d>/" in path or path.endswith("/<d>")` on such an absolute path
  holds exactly when `<d>` is one of the path's segments.
* The per-call subprocess transport is modelled by the list of output
  lines it produced; `json.loads` is an abstract parameter
  `parse : String -> Option (List (String × α))` returning the parsed
  JSON object as an association list (a line that does not parse as a
  JSON object is sent to `none`).
* Python exceptions escaping a client call are the constructors of
  `ToolCallErr`; clients return `Except` values.
* `os.listdir` order is an explicit parameter (`Lister`): any function
  returning a permutation of the directory's children.
-/

/-- Error outcomes of a tool call, naming the exceptions the Python
clients can raise: the explicit parse-failure raise (the spec's
`ProtocolError`), the error-envelope raise of `mcp_client.call_tool`
(the spec's `ToolError`), the `KeyError` escaping
`response["result"]`, and the re-raised `CalledProcessError`
(the spec's `TransportError`). -/
inductive ToolCallErr (α : Type) where
  | protocolError (raw : String)
  | toolError (payload : α)
  | keyError
  | transportError (stdout stderr : String)
deriving Repr

/-- Python `s.startswith(p)` (written over the character lists so that
it computes by reduction). -/
def startsWithStr (p s : String) : Bool :=
  p.data.isPrefixOf s.data

/-- Python `s.endswith(p)` (written over the character lists so that it
computes by reduction). -/
def endsWithStr (p s : String) : Bool :=
  p.data.isSuffixOf s.data

/-- Response-line scan of `mcp_client.MCPClient._send_request`
(mcp_client.py lines 85-93): return the first output line that starts
with a brace and parses as a JSON object. -/
def scan_response {α : Type} (parse : String → Option (List (String × α)))
    (lines : List String) : Option (List (String × α)) :=
  lines.findSome? (fun line => if startsWithStr "\x7b" line then parse line else none)

/-- Model of `mcp_client.MCPClient._send_request` on a transport that
returned output `lines`: the first parsed JSON object, or the
`Failed to parse response` exception when no line parses. -/
def send_request {α : Type} (parse : String → Option (List (String × α)))
    (lines : List String) : Except (ToolCallErr α) (List (String × α)) :=
  match scan_response parse lines with
  | some r => Except.ok r
  | none => Except.error (ToolCallErr.protocolError (String.intercalate "\n" lines))

/-- Model of `mcp_client.MCPClient.call_tool` (mcp_client.py lines
102-128): send the request; if the response object has an `error` key,
raise carrying the error payload; otherwise index `response["result"]`
(a missing key raises `KeyError`). -/
def call_tool_mcp {α : Type} (parse : String → Option (List (String × α)))
    (lines : List String) : Except (ToolCallErr α) α :=
  match send_request parse lines with
  | Except.error e => Except.error e
  | Except.ok resp =>
    match List.lookup "error" resp with
    | some err => Except.error (ToolCallErr.toolError err)
    | none =>
      match List.lookup "result" resp with
      | some r => Except.ok r
      | none => Except.error ToolCallErr.keyError

/-- Model of `build_project_memory.MCPClient.call_tool`
(build_project_memory.py lines 77-93): scan the output lines for the
first line that starts with a brace, parses as a JSON object and
contains a `result` key, and return that key's value; if no line
qualifies, raise the `Failed to parse response` exception. -/
def call_tool_bpm {α : Type} (parse : String → Option (List (String × α)))
    (lines : List String) : Except (ToolCallErr α) α :=
  match lines.findSome? (fun line =>
      if startsWithStr "\x7b" line then (parse line).bind (List.lookup "result")
      else none) with
  | some r => Except.ok r
  | none => Except.error (ToolCallErr.protocolError (String.intercalate "\n" lines))

/-- Constant `MAX_OBSERVATION_LENGTH` of build_project_memory.py line 20. -/
def MAX_OBSERVATION_LENGTH : Nat := 1000

/-- Constant `MAX_CONTENT_SIZE` of build_memory_graph.py line 24. -/
def MAX_CONTENT_SIZE : Nat := 5000

/-- Constant `MAX_BATCH_SIZE` of build_memory_graph.py line 25. -/
def MAX_BATCH_SIZE : Nat := 5

/-- A file as the readers see it: its `os.path.getsize` result, its
decoded character content, and `err = some e` when opening or statting
it raises an exception with message `e`. -/
structure FileOnDisk where
  size : Nat
  content : List Char
  err : Option String

/-- Model of `build_memory_graph.read_file_safe` (build_memory_graph.py
lines 27-40): on a read error return an error marker; if the on-disk
size exceeds `max_size` return the size marker without reading; else
read the content and truncate with a marker if it exceeds `max_size`
characters. -/
def read_file_safe (f : FileOnDisk) (max_size : Nat) : String :=
  match f.err with
  | some e => "Error reading file: " ++ e
  | none =>
    if f.size > max_size then
      "File too large (" ++ toString f.size ++ " bytes)"
    else if f.content.length > max_size then
      String.mk (f.content.take max_size) ++ "... (truncated)"
    else
      String.mk f.content

/-- Suffix appended by `get_file_content` when the character cap is
reached (build_project_memory.py line 154). -/
def truncation_suffix : List Char := "... (truncated)".data

/-- Model of `build_project_memory.get_file_content`
(build_project_memory.py lines 140-157): read up to `max_length`
characters; if exactly `max_length` characters were read, append the
truncation suffix; on a read error return an error marker. -/
def get_file_content (f : FileOnDisk) (max_length : Nat) : String :=
  match f.err with
  | some e => "Error reading file: " ++ e
  | none =>
    let content := f.content.take max_length
    if content.length = max_length then String.mk (content ++ truncation_suffix)
    else String.mk content

/-- Constant `EXCLUDED_DIRS` of build_project_memory.py line 21. -/
def EXCLUDED_DIRS : List String :=
  [".git", "node_modules", ".vscode-test", "out", "dist", "__pycache__"]

/-- Constant `EXCLUDED_FILES` of build_project_memory.py line 22. -/
def EXCLUDED_FILES : List String :=
  [".DS_Store", "*.pyc", "*.pyo", "*.pyd", "*.so", "*.dll", "*.class"]

/-- Constant `INCLUDED_EXTENSIONS` of build_project_memory.py lines 23-27. -/
def INCLUDED_EXTENSIONS : List String :=
  [".py", ".js", ".ts", ".tsx", ".jsx", ".java", ".c", ".cpp", ".h", ".hpp",
   ".cs", ".go", ".rb", ".php", ".rs", ".swift", ".kt", ".md", ".json", ".yaml",
   ".yml", ".xml", ".html", ".css", ".scss", ".sass", ".sh", ".bash", ".txt"]

/-- Index of the last dot in a character list, or `none`. -/
def lastDotIdx : List Char → Option Nat
  | [] => none
  | c :: cs =>
    match lastDotIdx cs with
    | some i => some (i + 1)
    | none => if c = '.' then some 0 else none

/-- Model of the extension part of `os.path.splitext` applied to a
basename: split at the last dot, except that a dot preceded only by
dots (a leading-dot filename such as `.git`) yields no extension. -/
def splitextExt (name : String) : String :=
  match lastDotIdx name.data with
  | none => ""
  | some k =>
    if (name.data.take k).all (fun c => c = '.') then ""
    else String.mk (name.data.drop k)

/-- ASCII lowercasing of a string, as Python `str.lower` acts on the
extension strings involved here. -/
def lowerStr (s : String) : String :=
  String.mk (s.data.map Char.toLower)

/-- Match of one `EXCLUDED_FILES` entry against a file basename
(build_project_memory.py lines 126-131): a pattern starting with `*`
matches by suffix, any other pattern by equality. -/
def matchesExcludedFile (pat name : String) : Bool :=
  if startsWithStr "*" pat then endsWithStr (String.mk (pat.data.drop 1)) name
  else name == pat

/-- Model of `build_project_memory.should_include_file`
(build_project_memory.py lines 110-138) on an absolute path given as
its list of segments: reject paths with an `EXCLUDED_DIRS` segment,
then basenames matched by `EXCLUDED_FILES`, then extensions whose
lowercasing is not in `INCLUDED_EXTENSIONS`. -/
def should_include_file (path : List String) : Bool :=
  if path.any (fun s => EXCLUDED_DIRS.contains s) then false
  else if EXCLUDED_FILES.any
      (fun pat => matchesExcludedFile pat ((path.getLast?).getD "")) then false
  else INCLUDED_EXTENSIONS.contains (lowerStr (splitextExt ((path.getLast?).getD "")))

/-- An entity record as built by the scripts: a JSON object with
`name`, `entityType` and `observations` fields. -/
structure Entity where
  name : String
  entityType : String
  observations : List String
deriving Repr, DecidableEq

/-- A relation record: a JSON object with `from`, `to` and
`relationType` fields (`from` is a Lean keyword, so the field is named
`fromName`). -/
structure Relation where
  fromName : String
  toName : String
  relationType : String
deriving Repr, DecidableEq

/-- One tool call issued against the memory store, restricted to the
tool surface the scripts use for writing and resetting. -/
inductive ToolCall where
  | createEntities (entities : List Entity)
  | createRelations (relations : List Relation)
  | deleteEntities (entityNames : List String)
  | readGraph
deriving Repr, DecidableEq

/-- Whether a call is a `create_entities` call. -/
def isCreateEntitiesCall : ToolCall → Bool
  | ToolCall.createEntities _ => true
  | _ => false

/-- Whether a call is a `create_relations` call. -/
def isCreateRelationsCall : ToolCall → Bool
  | ToolCall.createRelations _ => true
  | _ => false

/-- Whether a call is a `delete_entities` call. -/
def isDeleteCall : ToolCall → Bool
  | ToolCall.deleteEntities _ => true
  | _ => false

/-- Whether a call creates anything (entities or relations). -/
def isCreateCall : ToolCall → Bool
  | ToolCall.createEntities _ => true
  | ToolCall.createRelations _ => true
  | _ => false

/-- Entity names carried by one call (empty for non-entity calls). -/
def callEntityNames : ToolCall → List String
  | ToolCall.createEntities es => es.map (fun e => e.name)
  | _ => []

/-- Entity names carried by a trace of calls, in order. -/
def traceEntityNames (tr : List ToolCall) : List String :=
  tr.flatMap callEntityNames

/-- A filesystem node: a regular file with its decoded content, or a
directory with its children. -/
inductive FSItem where
  | fileNode (name : String) (content : List Char)
  | dirNode (name : String) (children : List FSItem)
deriving Repr

/-- Name (last path segment) of a node. -/
def FSItem.name : FSItem → String
  | FSItem.fileNode n _ => n
  | FSItem.dirNode n _ => n

/-- Result of `os.path.isdir` on a node. -/
def FSItem.isDir : FSItem → Bool
  | FSItem.fileNode _ _ => false
  | FSItem.dirNode _ _ => true

/-- Result of `os.path.isfile` on a node. -/
def FSItem.isFile : FSItem → Bool
  | FSItem.fileNode _ _ => true
  | FSItem.dirNode _ _ => false

/-- Content of a node (empty for directories). -/
def FSItem.content : FSItem → List Char
  | FSItem.fileNode _ c => c
  | FSItem.dirNode _ _ => []

/-- An `os.listdir` ordering oracle: for every directory (identified by
its path and its set of children) some listing order, always a
permutation of the children. -/
structure Lister where
  ord : List String → List FSItem → List FSItem
  ord_perm : ∀ p l, List.Perm (ord p l) l

/-- The identity ordering oracle: children listed in model order. -/
def idLister : Lister :=
  { ord := fun _ l => l, ord_perm := fun _ l => List.Perm.refl l }

/-- Filter of the directory loop of `index_directory`
(build_project_memory.py lines 207-228): child directories whose name
is not excluded. -/
def dirChildFilter (c : FSItem) : Bool :=
  c.isDir && !(EXCLUDED_DIRS.contains c.name)

/-- Filter of the file loop of `index_directory`
(build_project_memory.py lines 231-253): child files passing
`should_include_file` on their full path. -/
def fileChildFilter (fsPath : List String) (c : FSItem) : Bool :=
  c.isFile && should_include_file (fsPath ++ [c.name])

/-- Directory entity built for a child directory
(build_project_memory.py lines 216-221). -/
def dir_entity (parent item : String) : Entity :=
  { name := parent ++ "/" ++ item,
    entityType := "Directory",
    observations := ["Directory in " ++ parent ++ ": " ++ item] }

/-- File entity built for a child file (build_project_memory.py lines
236-246), with the `get_file_content` observation. -/
def file_entity (parent item : String) (content : List Char) : Entity :=
  { name := parent ++ "/" ++ item,
    entityType := "File",
    observations := ["File in " ++ parent ++ ": " ++ item,
                     get_file_content { size := content.length, content := content, err := none }
                       MAX_OBSERVATION_LENGTH] }

/-- CONTAINS relation from a parent entity to a child entity
(build_project_memory.py lines 224-228 and 249-253). -/
def contains_relation (parent child : String) : Relation :=
  { fromName := parent, toName := child, relationType := "CONTAINS" }

/-- Directory entities built by one `index_directory` invocation, in
listing order. -/
def level_dir_entities (parent : String) (listed : List FSItem) : List Entity :=
  (listed.filter dirChildFilter).map (fun c => dir_entity parent c.name)

/-- File entities built by one `index_directory` invocation, in listing
order. -/
def level_file_entities (fsPath : List String) (parent : String)
    (listed : List FSItem) : List Entity :=
  (listed.filter (fileChildFilter fsPath)).map
    (fun c => file_entity parent c.name c.content)

/-- Relations built by one `index_directory` invocation: the directory
loop's relations followed by the file loop's relations. -/
def level_relations (fsPath : List String) (parent : String)
    (listed : List FSItem) : List Relation :=
  (listed.filter dirChildFilter).map
      (fun c => contains_relation parent (parent ++ "/" ++ c.name))
    ++ (listed.filter (fileChildFilter fsPath)).map
      (fun c => contains_relation parent (parent ++ "/" ++ c.name))

/-- Tool calls issued by one `index_directory` invocation for its own
level (build_project_memory.py lines 255-265): directory entities, then
file entities, then relations, each call skipped when its list is
empty. -/
def level_calls (fsPath : List String) (parent : String)
    (listed : List FSItem) : List ToolCall :=
  (if (level_dir_entities parent listed).isEmpty then []
   else [ToolCall.createEntities (level_dir_entities parent listed)])
  ++ (if (level_file_entities fsPath parent listed).isEmpty then []
      else [ToolCall.createEntities (level_file_entities fsPath parent listed)])
  ++ (if (level_relations fsPath parent listed).isEmpty then []
      else [ToolCall.createRelations (level_relations fsPath parent listed)])

/-- Model of `build_project_memory.index_directory`
(build_project_memory.py lines 188-273) under a listing oracle `L`: an
excluded directory returns immediately; otherwise the level's calls are
issued, then each non-excluded child directory is indexed recursively
with entity name `parent/item`.  The trace of issued tool calls is
returned.  Called on a file node it issues nothing (the script only
ever calls it on directories). -/
def index_directory_ord (L : Lister) : FSItem → List String → String → List ToolCall
  | FSItem.fileNode _ _, _, _ => []
  | FSItem.dirNode dname children, fsPath, parent =>
    if EXCLUDED_DIRS.contains dname then []
    else
      level_calls fsPath parent (L.ord fsPath children)
        ++ (((L.ord fsPath children).filter dirChildFilter).attach.flatMap
            (fun c => index_directory_ord L c.1 (fsPath ++ [c.1.name])
              (parent ++ "/" ++ c.1.name)))
termination_by t => sizeOf t
decreasing_by
  have h1 : c.1 ∈ (L.ord fsPath children).filter dirChildFilter := c.2
  have h2 : c.1 ∈ L.ord fsPath children := List.mem_of_mem_filter h1
  have h3 : c.1 ∈ children := (L.ord_perm fsPath children).subset h2
  have h4 := List.sizeOf_lt_of_mem h3
  simp only [FSItem.dirNode.sizeOf_spec]
  omega

/-- The walker with `os.listdir` returning children in model order. -/
def index_directory (t : FSItem) (fsPath : List String) (parent : String) :
    List ToolCall :=
  index_directory_ord idLister t fsPath parent

/-- Segments of the `PROJECTS_DIR` constant
(build_project_memory.py line 18). -/
def PROJECTS_DIR_SEGS : List String := ["home", "thein", "projects"]

/-- Model of `build_project_memory.index_project`
(build_project_memory.py lines 159-186): create the project entity
(named after the directory basename), then index the directory with the
project name as parent entity. -/
def index_project_ord (L : Lister) (t : FSItem) (fsPath : List String) :
    List ToolCall :=
  ToolCall.createEntities
      [{ name := t.name, entityType := "Project",
         observations := ["Project directory: " ++ t.name] }]
    :: index_directory_ord L t fsPath t.name

/-- Trace of tool calls issued by `build_project_memory.main`
(build_project_memory.py lines 275-323) in the all-projects branch:
when `reset` is set, read the graph and, if it holds entities, delete
them all in one call; then index every non-hidden project directory.
`graph_entities` is the entity list the `read_graph` call returned. -/
def main_trace (L : Lister) (reset : Bool) (graph_entities : List Entity)
    (projectsRoot : List FSItem) : List ToolCall :=
  (if reset then
      ToolCall.readGraph
        :: (if graph_entities.isEmpty then []
            else [ToolCall.deleteEntities (graph_entities.map (fun e => e.name))])
    else [])
  ++ (projectsRoot.filter
        (fun t => t.isDir && !(startsWithStr "." t.name))).flatMap
      (fun t => index_project_ord L t (PROJECTS_DIR_SEGS ++ [t.name]))

/-- Batch splitting of `build_memory_graph.process_project` lines
101-112 and `neo4j_memory_builder.create_entities_batch` lines 38-52:
the Python loop `for i in range(0, len(l), k)` over slices `l[i:i+k]`.
The stride `k = 0` (a `ValueError` in Python, never reached: the
scripts use 5 and 10) is mapped to the empty list. -/
def batches (k : Nat) (l : List α) : List (List α) :=
  if h : k = 0 ∨ l.isEmpty then []
  else l.take k :: batches k (l.drop k)
termination_by l.length
decreasing_by
  push_neg at h
  cases l with
  | nil => simp at h
  | cons a l => simp only [List.length_drop, List.length_cons]; omega

/-- Trace of the batched submission section of
`build_memory_graph.process_project` (lines 101-112): every entity
batch is submitted as one `create_entities` call, then every relation
batch as one `create_relations` call. -/
def sync_trace (file_entities : List Entity) (file_relations : List Relation)
    (k : Nat) : List ToolCall :=
  (batches k file_entities).map ToolCall.createEntities
    ++ (batches k file_relations).map ToolCall.createRelations

/-- Every call satisfying `P` occurs strictly before every call
satisfying `Q` in the trace. -/
def callsBefore (tr : List ToolCall) (P Q : ToolCall → Bool) : Prop :=
  ∀ i j, (hi : i < tr.length) → (hj : j < tr.length) →
    P (tr.get ⟨i, hi⟩) = true → Q (tr.get ⟨j, hj⟩) = true → i < j

/-- Concrete parse function for the C1 counterexample: the single
transport line parses to an object holding only an `error` key. -/
def cexErrParse : String → Option (List (String × Nat)) :=
  fun s => if s = "\x7be\x7d" then some [("error", 7)] else none

/-- Concrete transport output for the C1 counterexample. -/
def cexErrLines : List String := ["\x7be\x7d"]

/-- Concrete parse function whose single line parses to an object
holding a `result` key. -/
def okResParse : String → Option (List (String × Nat)) :=
  fun s => if s = "\x7br\x7d" then some [("result", 3)] else none

/-- Concrete transport output for the result-envelope witness. -/
def okResLines : List String := ["\x7br\x7d"]

/-- Concrete parse function that parses no line. -/
def noParse : String → Option (List (String × Nat)) := fun _ => none

/-- Six sample entities, so that a batch size of 5 yields two chunks. -/
def egEntities : List Entity :=
  [{ name := "e1", entityType := "File", observations := [] },
   { name := "e2", entityType := "File", observations := [] },
   { name := "e3", entityType := "File", observations := [] },
   { name := "e4", entityType := "File", observations := [] },
   { name := "e5", entityType := "File", observations := [] },
   { name := "e6", entityType := "File", observations := [] }]

/-- Two sample relations. -/
def egRelations : List Relation :=
  [{ fromName := "p", toName := "e1", relationType := "contains" },
   { fromName := "p", toName := "e2", relationType := "contains" }]

/-- Sample remote-graph content for the reset witness: the store holds
entities named `A` and `B`. -/
def egGraphEntities : List Entity :=
  [{ name := "A", entityType := "Project", observations := [] },
   { name := "B", entityType := "File", observations := [] }]

/-- Sample projects-root listing for the reset witness. -/
def egProjects : List FSItem :=
  [FSItem.dirNode "demo" [FSItem.fileNode "a.py" "x = 1".data]]

/-- Sample oversized file for the size-marker witness: nine bytes on
disk against a cap of five. -/
def egBigFile : FileOnDisk :=
  { size := 9, content := "ware-ware".data, err := none }

/-- A second file of the same on-disk size but different content. -/
def egBigFile2 : FileOnDisk :=
  { size := 9, content := "123456789".data, err := none }

/-- Sample directory tree containing an excluded `.git` directory and
an excluded `.DS_Store` file next to an ordinary source file. -/
def egTreeKept : List FSItem :=
  [FSItem.fileNode "a.py" "x = 1".data,
   FSItem.dirNode "lib" [FSItem.fileNode "b.py" "y = 2".data]]

/-- The ordering oracle that lists children in reverse model order. -/
def revLister : Lister :=
  { ord := fun _ l => l.reverse, ord_perm := fun _ l => List.reverse_perm l }

/-- C6: on a transport output made of non-empty lines none of which
parses as a JSON object, both `call_tool` implementations fail with the
`ProtocolError` parse-failure exception and with no other exception
type. -/
theorem call_tool_unparsable_protocol_error {α : Type}
    (parse : String → Option (List (String × α))) (lines : List String)
    (h : ∀ l ∈ lines, l ≠ "" ∧ parse l = none) :
    call_tool_mcp parse lines
        = Except.error (ToolCallErr.protocolError (String.intercalate "\n" lines))
    ∧ call_tool_bpm parse lines
        = Except.error (ToolCallErr.protocolError (String.intercalate "\n" lines)) := by
  have hscan : scan_response parse lines = none := by
    unfold scan_response
    rw [List.findSome?_eq_none_iff]
    intro l hl
    rcases h l hl with ⟨-, hp⟩
    by_cases hs : startsWithStr "\x7b" l <;> simp [hs, hp]
  have hscan2 : lines.findSome? (fun line =>
      if startsWithStr "\x7b" line then (parse line).bind (List.lookup "result")
      else none) = none := by
    rw [List.findSome?_eq_none_iff]
    intro l hl
    rcases h l hl with ⟨-, hp⟩
    by_cases hs : startsWithStr "\x7b" l <;> simp [hs, hp]
  constructor
  · unfold call_tool_mcp send_request
    rw [hscan]
  · unfold call_tool_bpm
    rw [hscan2]

/-- Witness for the C6 theorem: a transport that returned the single
non-JSON line `not json`. -/
theorem call_tool_unparsable_protocol_error_witness :
    (∀ l ∈ ["not json"], l ≠ "" ∧ noParse l = none)
    ∧ (call_tool_mcp noParse ["not json"]
        = Except.error (ToolCallErr.protocolError (String.intercalate "\n" ["not json"]))
      ∧ call_tool_bpm noParse ["not json"]
        = Except.error (ToolCallErr.protocolError (String.intercalate "\n" ["not json"]))) :=
  ⟨by intro l hl; simp only [List.mem_singleton] at hl; subst hl
      exact ⟨by decide, rfl⟩,
   call_tool_unparsable_protocol_error noParse ["not json"]
     (by intro l hl; simp only [List.mem_singleton] at hl; subst hl
         exact ⟨by decide, rfl⟩)⟩

/-- C1 counterexample: a transport whose single line parses to a
response object carrying an `error` key.  The claim says every
`call_tool` then fails with a `ToolError` carrying the payload, but
`build_project_memory.MCPClient.call_tool` only scans for a `result`
key, so it falls through to the generic parse failure (the
`ProtocolError`) and the server-supplied payload is lost. -/
theorem call_tool_bpm_error_key_not_tool_error :
    List.lookup "error" [("error", (7 : Nat))] = some 7
    ∧ call_tool_bpm cexErrParse cexErrLines
        = Except.error (ToolCallErr.protocolError "\x7be\x7d")
    ∧ ∀ p : Nat, call_tool_bpm cexErrParse cexErrLines
        ≠ Except.error (ToolCallErr.toolError p) := by
  refine ⟨rfl, rfl, ?_⟩
  intro p hp
  rw [show call_tool_bpm cexErrParse cexErrLines
      = Except.error (ToolCallErr.protocolError "\x7be\x7d") from rfl] at hp
  simp at hp

/-- C1 amended: in `mcp_client.MCPClient.call_tool` a response with an
`error` key raises the `ToolError` with the payload, otherwise a
`result` key returns its value, and a response with neither key raises
a `KeyError` (not the `ProtocolError` the claim names); in
`build_project_memory.MCPClient.call_tool` only a response line with a
`result` key returns, and any output without one — including an
error-envelope response — fails with the `ProtocolError` parse failure,
so the error payload is not surfaced. -/
theorem call_tool_envelope_handling {α : Type}
    (parse : String → Option (List (String × α))) (lines : List String)
    (resp : List (String × α)) (hresp : send_request parse lines = Except.ok resp) :
    (∀ e, List.lookup "error" resp = some e →
        call_tool_mcp parse lines = Except.error (ToolCallErr.toolError e))
    ∧ (∀ r, List.lookup "error" resp = none → List.lookup "result" resp = some r →
        call_tool_mcp parse lines = Except.ok r)
    ∧ (List.lookup "error" resp = none → List.lookup "result" resp = none →
        call_tool_mcp parse lines = Except.error ToolCallErr.keyError)
    ∧ ((∀ l ∈ lines, ∀ o, parse l = some o → List.lookup "result" o = none) →
        call_tool_bpm parse lines
          = Except.error (ToolCallErr.protocolError (String.intercalate "\n" lines))) := by
  refine ⟨?_, ?_, ?_, ?_⟩
  · intro e he
    unfold call_tool_mcp
    rw [hresp]
    simp [he]
  · intro r he hr
    unfold call_tool_mcp
    rw [hresp]
    simp [he, hr]
  · intro he hr
    unfold call_tool_mcp
    rw [hresp]
    simp [he, hr]
  · intro hnores
    unfold call_tool_bpm
    have : lines.findSome? (fun line =>
        if startsWithStr "\x7b" line then (parse line).bind (List.lookup "result")
        else none) = none := by
      rw [List.findSome?_eq_none_iff]
      intro l hl
      by_cases hs : startsWithStr "\x7b" l
      · simp only [hs, if_true]
        cases hpl : parse l with
        | none => rfl
        | some o => simp [hnores l hl o hpl]
      · simp [hs]
    rw [this]

/-- Witness for the amended C1 theorem: a result envelope is unwrapped
by `mcp_client.MCPClient.call_tool`. -/
theorem call_tool_envelope_handling_witness :
    send_request okResParse okResLines = Except.ok [("result", (3 : Nat))]
    ∧ call_tool_mcp okResParse okResLines = Except.ok 3 :=
  ⟨rfl, (call_tool_envelope_handling okResParse okResLines
      [("result", (3 : Nat))] rfl).2.1 3 rfl rfl⟩

/-- C4: for a readable file whose on-disk size exceeds the configured
cap, `read_file_safe` returns exactly the size-exceeded marker
reporting the size, and the result is independent of the file's
content, so none of the raw content can appear in the observation. -/
theorem read_file_safe_size_marker (f : FileOnDisk) (max_size : Nat)
    (he : f.err = none) (hs : max_size < f.size) :
    read_file_safe f max_size = "File too large (" ++ toString f.size ++ " bytes)"
    ∧ ∀ g : FileOnDisk, g.err = none → g.size = f.size →
        read_file_safe g max_size = read_file_safe f max_size := by
  have h1 : read_file_safe f max_size
      = "File too large (" ++ toString f.size ++ " bytes)" := by
    unfold read_file_safe
    rw [he]
    simp [hs]
  constructor
  · exact h1
  · intro g hg hq
    have hgs : max_size < g.size := by omega
    have h2 : read_file_safe g max_size
        = "File too large (" ++ toString g.size ++ " bytes)" := by
      unfold read_file_safe
      rw [hg]
      simp [hgs]
    rw [h2, hq, h1]

/-- Witness for the C4 theorem: a nine-byte file against a cap of five,
and a second file of the same size with different content producing the
identical marker. -/
theorem read_file_safe_size_marker_witness :
    egBigFile.err = none ∧ 5 < egBigFile.size
    ∧ read_file_safe egBigFile 5
        = "File too large (" ++ toString egBigFile.size ++ " bytes)"
    ∧ read_file_safe egBigFile2 5 = read_file_safe egBigFile 5 :=
  ⟨rfl, by decide,
   (read_file_safe_size_marker egBigFile 5 rfl (by decide)).1,
   (read_file_safe_size_marker egBigFile 5 rfl (by decide)).2 egBigFile2 rfl rfl⟩

/-- C7 counterexample: a readable file with exactly
`MAX_OBSERVATION_LENGTH` characters of content.  `get_file_content`
returns the capped content with the truncation suffix appended — 1015
characters, strictly more than the fixed maximum observation length the
claim asserts as the bound. -/
theorem get_file_content_exceeds_cap :
    (get_file_content
        { size := 1000, content := List.replicate 1000 'a', err := none }
        MAX_OBSERVATION_LENGTH).length = 1015
    ∧ MAX_OBSERVATION_LENGTH < 1015 := by
  have h1 : get_file_content
      { size := 1000, content := List.replicate 1000 'a', err := none }
      MAX_OBSERVATION_LENGTH
      = String.mk ((List.replicate 1000 'a').take 1000 ++ truncation_suffix) := by
    unfold get_file_content MAX_OBSERVATION_LENGTH
    have hc : ((List.replicate (1000 : Nat) 'a').take 1000).length = 1000 := by
      rw [List.length_take, List.length_replicate, Nat.min_self]
    simp only [hc, if_true]
  constructor
  · rw [h1]
    show ((List.replicate 1000 'a').take 1000 ++ truncation_suffix).length = 1015
    rw [List.length_append, List.length_take, List.length_replicate]
    rfl
  · decide

/-- C7 amended: an observation derived from file content by
`get_file_content` has length at most the cap plus the length of the
truncation suffix; content is read up to the cap, and whenever the cap
is reached the explicit truncation suffix is appended (in particular
whenever any content is cut off), while shorter content is returned
verbatim — so no content is ever dropped without the marker. -/
theorem get_file_content_bounded (f : FileOnDisk) (max_length : Nat)
    (he : f.err = none) :
    (get_file_content f max_length).length ≤ max_length + truncation_suffix.length
    ∧ (max_length ≤ f.content.length →
        get_file_content f max_length
          = String.mk (f.content.take max_length ++ truncation_suffix))
    ∧ (f.content.length < max_length →
        get_file_content f max_length = String.mk f.content) := by
  unfold get_file_content
  rw [he]
  have hlen : (f.content.take max_length).length = min max_length f.content.length :=
    List.length_take _ _
  refine ⟨?_, ?_, ?_⟩
  · by_cases hc : (f.content.take max_length).length = max_length
    · simp only [hc, if_true, String.length]
      rw [List.length_append, hc]
    · simp only [hc, if_false, String.length]
      omega
  · intro hge
    have hc : (f.content.take max_length).length = max_length := by omega
    simp [hc]
  · intro hlt
    have htake : f.content.take max_length = f.content :=
      List.take_of_length_le (by omega)
    have hc : f.content.length ≠ max_length := by omega
    simp [htake, hc]

/-- Witness for the amended C7 theorem at a concrete short file. -/
theorem get_file_content_bounded_witness :
    egBigFile.err = none
    ∧ (get_file_content egBigFile MAX_OBSERVATION_LENGTH).length
        ≤ MAX_OBSERVATION_LENGTH + truncation_suffix.length
    ∧ (egBigFile.content.length < MAX_OBSERVATION_LENGTH →
        get_file_content egBigFile MAX_OBSERVATION_LENGTH = String.mk egBigFile.content) :=
  ⟨rfl, (get_file_content_bounded egBigFile MAX_OBSERVATION_LENGTH rfl).1,
   (get_file_content_bounded egBigFile MAX_OBSERVATION_LENGTH rfl).2.2⟩

/-- C10: `should_include_file` decides by the lowercased extension:
once the excluded-directory and excluded-file checks pass, inclusion is
exactly membership of the lowercased extension in the allow-list (so
extensions differing only in letter case are treated alike), and a path
whose basename has no extension is always excluded. -/
theorem should_include_file_lowercases_ext (p : List String) :
    (splitextExt ((p.getLast?).getD "") = "" → should_include_file p = false)
    ∧ ((p.any fun s => EXCLUDED_DIRS.contains s) = false →
       (EXCLUDED_FILES.any fun pat =>
           matchesExcludedFile pat ((p.getLast?).getD "")) = false →
       should_include_file p
         = INCLUDED_EXTENSIONS.contains (lowerStr (splitextExt ((p.getLast?).getD "")))) := by
  constructor
  · intro hext
    unfold should_include_file
    split
    · rfl
    · split
      · rfl
      · rw [hext]
        decide
  · intro h1 h2
    unfold should_include_file
    rw [if_neg (by rw [h1]; exact Bool.false_ne_true)]
    rw [if_neg (by rw [h2]; exact Bool.false_ne_true)]

/-- Witness for the C10 theorem: an upper-case `.PY` file is included,
an extensionless file is excluded. -/
theorem should_include_file_lowercases_ext_witness :
    should_include_file ["home", "u", "proj", "a.PY"]
        = INCLUDED_EXTENSIONS.contains
            (lowerStr (splitextExt (((["home", "u", "proj", "a.PY"] :
              List String).getLast?).getD "")))
    ∧ should_include_file ["home", "u", "proj", "a.PY"] = true
    ∧ should_include_file ["home", "u", "proj", "noext"] = false :=
  ⟨(should_include_file_lowercases_ext ["home", "u", "proj", "a.PY"]).2
      (by decide) (by decide),
   by decide,
   (should_include_file_lowercases_ext ["home", "u", "proj", "noext"]).1
      (by decide)⟩

/-- Unfolding equation of `batches` on a non-empty list with positive
stride. -/
theorem batches_cons_eq {α : Type} (k : Nat) (hk : k ≠ 0) (l : List α)
    (hl : l ≠ []) :
    batches k l = l.take k :: batches k (l.drop k) := by
  rw [batches]
  rw [dif_neg]
  push_neg
  exact ⟨hk, by simpa using hl⟩

/-- The batches of the empty list are empty. -/
theorem batches_nil_eq {α : Type} (k : Nat) : batches k ([] : List α) = [] := by
  rw [batches]
  simp

/-- Concatenating the batches gives back the original list: the chunks
are contiguous and in original order. -/
theorem batches_flatten {α : Type} (k : Nat) (hk : 0 < k) :
    ∀ l : List α, (batches k l).flatten = l := by
  have H : ∀ (n : Nat) (l : List α), l.length = n → (batches k l).flatten = l := by
    intro n
    induction n using Nat.strong_induction_on with
    | _ n ih =>
      intro l hl
      cases l with
      | nil => simp [batches_nil_eq]
      | cons a t =>
        rw [batches_cons_eq k (by omega) (a :: t) (by simp)]
        rw [List.flatten_cons]
        rw [ih ((a :: t).drop k).length (by rw [← hl]; simp; omega) _ rfl]
        exact List.take_append_drop k (a :: t)
  exact fun l => H l.length l rfl

/-- The number of batches of an `n`-element list with stride `k` is the
ceiling of `n / k`. -/
theorem batches_count {α : Type} (k : Nat) (hk : 0 < k) :
    ∀ l : List α, (batches k l).length = (l.length + k - 1) / k := by
  have H : ∀ (n : Nat) (l : List α), l.length = n →
      (batches k l).length = (l.length + k - 1) / k := by
    intro n
    induction n using Nat.strong_induction_on with
    | _ n ih =>
      intro l hl
      cases l with
      | nil =>
        rw [batches_nil_eq]
        simp [Nat.div_eq_of_lt (by omega : k - 1 < k)]
      | cons a t =>
        rw [batches_cons_eq k (by omega) (a :: t) (by simp)]
        rw [List.length_cons]
        rw [ih ((a :: t).drop k).length (by rw [← hl]; simp; omega) _ rfl]
        rw [List.length_drop]
        have hlen : 0 < (a :: t).length := by simp
        rcases Nat.lt_or_ge (a :: t).length k with hsmall | hbig
        · have h1 : (a :: t).length - k = 0 := by omega
        
          rw [h1]
          have h2 : (0 + k - 1) / k = 0 := Nat.div_eq_of_lt (by omega)
          have h3 : ((a :: t).length + k - 1) / k = 1 := by
            rw [show (a :: t).length + k - 1 = ((a :: t).length - 1) + k by omega]
            rw [Nat.add_div_right _ hk]
            rw [Nat.div_eq_of_lt (by omega)]
          omega
        · have h4 : (a :: t).length + k - 1 = ((a :: t).length - k + k - 1) + k := by
            omega
          rw [h4, Nat.add_div_right _ hk]
  exact fun l => H l.length l rfl

/-- Every batch holds at most `k` elements. -/
theorem batches_size_le {α : Type} (k : Nat) (hk : 0 < k) :
    ∀ (l : List α) (b : List α), b ∈ batches k l → b.length ≤ k := by
  have H : ∀ (n : Nat) (l : List α), l.length = n →
      ∀ b : List α, b ∈ batches k l → b.length ≤ k := by
    intro n
    induction n using Nat.strong_induction_on with
    | _ n ih =>
      intro l hl b hb
      cases l with
      | nil => rw [batches_nil_eq] at hb; cases hb
      | cons a t =>
        rw [batches_cons_eq k (by omega) (a :: t) (by simp)] at hb
        rcases List.mem_cons.mp hb with h | h
        · subst h
          exact List.length_take_le k (a :: t)
        · exact ih ((a :: t).drop k).length (by rw [← hl]; simp; omega) _ rfl b h
  exact fun l => H l.length l rfl

/-- Splitting lemma for the ordering predicate: if no call of the first
segment satisfies `Q` and no call of the second satisfies `P`, every
`P` call comes strictly before every `Q` call. -/
theorem callsBefore_of_split (a b : List ToolCall) (P Q : ToolCall → Bool)
    (hQ : ∀ c ∈ a, Q c = false) (hP : ∀ c ∈ b, P c = false) :
    callsBefore (a ++ b) P Q := by
  intro i j hi hj hPi hQj
  simp only [List.get_eq_getElem] at hPi hQj
  have hia : i < a.length := by
    by_contra hge
    push_neg at hge
    rw [List.getElem_append_right hge] at hPi
    rw [hP _ (List.getElem_mem _)] at hPi
    cases hPi
  have hja : a.length ≤ j := by
    by_contra hlt
    push_neg at hlt
    rw [List.getElem_append_left hlt] at hQj
    rw [hQ _ (List.getElem_mem _)] at hQj
    cases hQj
  omega

/-- C2: the batch synchronizer splits the entities into contiguous
chunks in original order (their concatenation is the original list),
issues exactly the ceiling of `n / k` entity-creation calls, each
carrying at most `k` entities, and every relation-creation call of the
scope comes strictly after every entity-creation call. -/
theorem batch_synchronizer_spec (es : List Entity) (rs : List Relation)
    (k : Nat) (hk : 0 < k) :
    (batches k es).flatten = es
    ∧ (sync_trace es rs k).countP isCreateEntitiesCall = (es.length + k - 1) / k
    ∧ (∀ bs, ToolCall.createEntities bs ∈ sync_trace es rs k → bs.length ≤ k)
    ∧ callsBefore (sync_trace es rs k) isCreateEntitiesCall isCreateRelationsCall := by
  refine ⟨batches_flatten k hk es, ?_, ?_, ?_⟩
  · unfold sync_trace
    rw [List.countP_append, List.countP_map, List.countP_map]
    have h1 : (isCreateEntitiesCall ∘ ToolCall.createEntities)
        = fun (_ : List Entity) => true := rfl
    have h2 : (isCreateEntitiesCall ∘ ToolCall.createRelations)
        = fun (_ : List Relation) => false := rfl
    rw [h1, h2]
    rw [List.countP_true, List.countP_false]
    simp only [Function.const_apply]
    rw [Nat.add_zero]
    exact batches_count k hk es
  · intro bs hbs
    unfold sync_trace at hbs
    rcases List.mem_append.mp hbs with h | h
    · rcases List.mem_map.mp h with ⟨b, hb, heq⟩
      injection heq with h3
      subst h3
      exact batches_size_le k hk es _ hb
    · rcases List.mem_map.mp h with ⟨b, hb, heq⟩
      cases heq
  · unfold sync_trace
    apply callsBefore_of_split
    · intro c hc
      rcases List.mem_map.mp hc with ⟨b, hb, heq⟩
      subst heq
      rfl
    · intro c hc
      rcases List.mem_map.mp hc with ⟨b, hb, heq⟩
      subst heq
      rfl

/-- Witness for the C2 theorem: six entities with the script's batch
size of five. -/
theorem batch_synchronizer_spec_witness :
    (batches MAX_BATCH_SIZE egEntities).flatten = egEntities
    ∧ (sync_trace egEntities egRelations MAX_BATCH_SIZE).countP isCreateEntitiesCall
        = (egEntities.length + MAX_BATCH_SIZE - 1) / MAX_BATCH_SIZE
    ∧ (∀ bs, ToolCall.createEntities bs ∈ sync_trace egEntities egRelations MAX_BATCH_SIZE →
        bs.length ≤ MAX_BATCH_SIZE)
    ∧ callsBefore (sync_trace egEntities egRelations MAX_BATCH_SIZE)
        isCreateEntitiesCall isCreateRelationsCall :=
  batch_synchronizer_spec egEntities egRelations MAX_BATCH_SIZE (by decide)

/-- Attach elimination for `flatMap`, used to state the walker's
unfolding equation without the termination bookkeeping. -/
theorem flatMap_attach_eq {α β : Type} (l : List α) (f : α → List β) :
    l.attach.flatMap (fun c => f c.1) = l.flatMap f := by
  rw [List.flatMap_def, List.flatMap_def, List.attach_map_val l f]

/-- Structural induction principle for filesystem trees: to prove a
property of every node it suffices to prove it for files and for
directories assuming it for every child. -/
theorem fsitemRecMem {motive : FSItem → Prop}
    (hfile : ∀ n c, motive (FSItem.fileNode n c))
    (hdir : ∀ n cs, (∀ c ∈ cs, motive c) → motive (FSItem.dirNode n cs)) :
    ∀ t, motive t
  | FSItem.fileNode n c => hfile n c
  | FSItem.dirNode n cs =>
    hdir n cs (fun c hc => fsitemRecMem hfile hdir c)
termination_by t => sizeOf t
decreasing_by
  have := List.sizeOf_lt_of_mem hc
  simp only [FSItem.dirNode.sizeOf_spec]
  omega

/-- Unfolding equation of the walker on a directory node. -/
theorem index_directory_ord_dir (L : Lister) (dname : String)
    (children : List FSItem) (fsPath : List String) (parent : String) :
    index_directory_ord L (FSItem.dirNode dname children) fsPath parent
      = if EXCLUDED_DIRS.contains dname then []
        else
          level_calls fsPath parent (L.ord fsPath children)
            ++ ((L.ord fsPath children).filter dirChildFilter).flatMap
              (fun c => index_directory_ord L c (fsPath ++ [c.name])
                (parent ++ "/" ++ c.name)) := by
  rw [index_directory_ord]
  split
  · rfl
  · congr 1
    exact flatMap_attach_eq
      (List.filter dirChildFilter (L.ord fsPath children))
      (fun c => index_directory_ord L c (fsPath ++ [c.name])
        (parent ++ "/" ++ c.name))

/-- The walker emits nothing for a file node. -/
theorem index_directory_ord_file (L : Lister) (n : String) (c : List Char)
    (fsPath : List String) (parent : String) :
    index_directory_ord L (FSItem.fileNode n c) fsPath parent = [] := by
  rw [index_directory_ord]

/-- Entity names carried by one level's calls: the directory entity
names followed by the file entity names (the relations call carries
none). -/
theorem traceEntityNames_level_calls (fsPath : List String) (parent : String)
    (listed : List FSItem) :
    traceEntityNames (level_calls fsPath parent listed)
      = (level_dir_entities parent listed).map (fun e => e.name)
        ++ (level_file_entities fsPath parent listed).map (fun e => e.name) := by
  unfold traceEntityNames level_calls
  rw [List.flatMap_append, List.flatMap_append]
  by_cases h1 : (level_dir_entities parent listed).isEmpty
    <;> by_cases h2 : (level_file_entities fsPath parent listed).isEmpty
    <;> by_cases h3 : (level_relations fsPath parent listed).isEmpty
    <;> simp_all [List.isEmpty_iff, callEntityNames]

/-- Every call a level issues is a creation call. -/
theorem level_calls_create (fsPath : List String) (parent : String)
    (listed : List FSItem) :
    ∀ c ∈ level_calls fsPath parent listed, isCreateCall c = true := by
  intro c hc
  unfold level_calls at hc
  rcases List.mem_append.mp hc with h | h
  · rcases List.mem_append.mp h with h1 | h1
    · split at h1
      · cases h1
      · rw [List.mem_singleton] at h1
        subst h1
        rfl
    · split at h1
      · cases h1
      · rw [List.mem_singleton] at h1
        subst h1
        rfl
  · split at h
    · cases h
    · rw [List.mem_singleton] at h
      subst h
      rfl

/-- A creation call is not a deletion call. -/
theorem isCreate_not_delete (c : ToolCall) (h : isCreateCall c = true) :
    isDeleteCall c = false := by
  cases c <;> simp_all [isCreateCall, isDeleteCall]

/-- Every call the walker issues is a creation call (it never deletes
or reads). -/
theorem index_directory_ord_all_creates (L : Lister) (t : FSItem) :
    ∀ (fsPath : List String) (parent : String) (c : ToolCall),
      c ∈ index_directory_ord L t fsPath parent → isCreateCall c = true := by
  induction t using fsitemRecMem with
  | hfile n cnt =>
    intro fsPath parent c hc
    rw [index_directory_ord_file] at hc
    cases hc
  | hdir n cs ih =>
    intro fsPath parent c hc
    rw [index_directory_ord_dir] at hc
    split at hc
    · cases hc
    · rcases List.mem_append.mp hc with h | h
      · exact level_calls_create _ _ _ c h
      · rcases List.mem_flatMap.mp h with ⟨d, hd, hcd⟩
        have hd2 : d ∈ cs :=
          (L.ord_perm fsPath cs).subset (List.mem_of_mem_filter hd)
        exact ih d hd2 _ _ c hcd

/-- A basename matched by the excluded-file patterns is never
included, whatever directory it sits in. -/
theorem should_include_file_excluded_file (p : List String) (name : String)
    (h : (EXCLUDED_FILES.any fun pat => matchesExcludedFile pat name) = true) :
    should_include_file (p ++ [name]) = false := by
  unfold should_include_file
  split
  · rfl
  · have hl : (((p ++ [name]).getLast?).getD "") = name := by
      rw [List.getLast?_concat]
      rfl
    rw [hl, if_pos h]

/-- C9: every relation built by one `index_directory` invocation has
the invocation's parent entity as source, relation type `CONTAINS`, and
a target that is the name of one of the directory or file entities
built by that same invocation. -/
theorem level_relations_well_formed (fsPath : List String) (parent : String)
    (listed : List FSItem) (r : Relation)
    (hr : r ∈ level_relations fsPath parent listed) :
    r.fromName = parent ∧ r.relationType = "CONTAINS"
    ∧ r.toName ∈ (level_dir_entities parent listed
        ++ level_file_entities fsPath parent listed).map (fun e => e.name) := by
  unfold level_relations at hr
  rw [List.map_append]
  rcases List.mem_append.mp hr with h | h
  · rcases List.mem_map.mp h with ⟨c, hc, heq⟩
    subst heq
    refine ⟨rfl, rfl, ?_⟩
    apply List.mem_append.mpr
    left
    unfold level_dir_entities
    rw [List.map_map]
    exact List.mem_map.mpr ⟨c, hc, rfl⟩
  · rcases List.mem_map.mp h with ⟨c, hc, heq⟩
    subst heq
    refine ⟨rfl, rfl, ?_⟩
    apply List.mem_append.mpr
    right
    unfold level_file_entities
    rw [List.map_map]
    exact List.mem_map.mpr ⟨c, hc, rfl⟩

/-- Witness for the C9 theorem: the relation for the `lib`
subdirectory of the sample tree. -/
theorem level_relations_well_formed_witness :
    contains_relation "demo" "demo/lib" ∈ level_relations ["home"] "demo" egTreeKept
    ∧ ((contains_relation "demo" "demo/lib").fromName = "demo"
      ∧ (contains_relation "demo" "demo/lib").relationType = "CONTAINS"
      ∧ (contains_relation "demo" "demo/lib").toName
          ∈ (level_dir_entities "demo" egTreeKept
              ++ level_file_entities ["home"] "demo" egTreeKept).map (fun e => e.name)) :=
  ⟨by decide,
   level_relations_well_formed ["home"] "demo" egTreeKept
     (contains_relation "demo" "demo/lib") (by decide)⟩

/-- C5: a child matched by the exclusion lists is pruned entirely: the
walker's output on a tree containing an excluded directory (or an
excluded file) equals its output on the same tree with that child and
its whole subtree removed, so no entity or relation for it or anything
beneath it is ever produced and the subtree is never visited. -/
theorem excluded_subtree_pruned :
    (∀ (n d : String) (xs cs₁ cs₂ : List FSItem) (fsPath : List String)
       (parent : String), d ∈ EXCLUDED_DIRS →
       index_directory (FSItem.dirNode n (cs₁ ++ FSItem.dirNode d xs :: cs₂))
           fsPath parent
         = index_directory (FSItem.dirNode n (cs₁ ++ cs₂)) fsPath parent)
    ∧ (∀ (n f : String) (cnt : List Char) (cs₁ cs₂ : List FSItem)
       (fsPath : List String) (parent : String),
       (EXCLUDED_FILES.any fun pat => matchesExcludedFile pat f) = true →
       index_directory (FSItem.dirNode n (cs₁ ++ FSItem.fileNode f cnt :: cs₂))
           fsPath parent
         = index_directory (FSItem.dirNode n (cs₁ ++ cs₂)) fsPath parent) := by
  have hfilter : ∀ (q : FSItem → Bool) (x : FSItem) (cs₁ cs₂ : List FSItem),
      q x = false →
      List.filter q (cs₁ ++ x :: cs₂) = List.filter q (cs₁ ++ cs₂) := by
    intro q x cs₁ cs₂ hq
    rw [List.filter_append, List.filter_append,
      List.filter_cons_of_neg (by simp [hq])]
  constructor
  · intro n d xs cs₁ cs₂ fsPath parent hd
    have hdfil : dirChildFilter (FSItem.dirNode d xs) = false := by
      simp [dirChildFilter, FSItem.isDir, FSItem.name, hd]
    have hffil : fileChildFilter fsPath (FSItem.dirNode d xs) = false := rfl
    unfold index_directory
    rw [index_directory_ord_dir, index_directory_ord_dir]
    simp only [idLister]
    unfold level_calls level_dir_entities level_file_entities level_relations
    rw [hfilter _ _ _ _ hdfil, hfilter _ _ _ _ hffil]
  · intro n f cnt cs₁ cs₂ fsPath parent hf
    have hdfil : dirChildFilter (FSItem.fileNode f cnt) = false := rfl
    have hffil : fileChildFilter fsPath (FSItem.fileNode f cnt) = false := by
      unfold fileChildFilter
      simp only [FSItem.name, FSItem.isFile]
      rw [should_include_file_excluded_file fsPath f hf]
      rfl
    unfold index_directory
    rw [index_directory_ord_dir, index_directory_ord_dir]
    simp only [idLister]
    unfold level_calls level_dir_entities level_file_entities level_relations
    rw [hfilter _ _ _ _ hdfil, hfilter _ _ _ _ hffil]

/-- Witness for the C5 theorem: removing a `.git` directory and a
`.DS_Store` file from the sample tree leaves the walker output
unchanged. -/
theorem excluded_subtree_pruned_witness :
    index_directory
        (FSItem.dirNode "demo"
          (egTreeKept ++ FSItem.dirNode ".git" [FSItem.fileNode "HEAD" []] :: []))
        ["home", "demo"] "demo"
      = index_directory (FSItem.dirNode "demo" (egTreeKept ++ [])) ["home", "demo"] "demo"
    ∧ index_directory
        (FSItem.dirNode "demo"
          (egTreeKept ++ FSItem.fileNode ".DS_Store" [] :: []))
        ["home", "demo"] "demo"
      = index_directory (FSItem.dirNode "demo" (egTreeKept ++ [])) ["home", "demo"] "demo" :=
  ⟨excluded_subtree_pruned.1 "demo" ".git" [FSItem.fileNode "HEAD" []]
      egTreeKept [] ["home", "demo"] "demo" (by decide),
   excluded_subtree_pruned.2 "demo" ".DS_Store" [] egTreeKept []
      ["home", "demo"] "demo" (by decide)⟩

/-- Entity names of an appended trace. -/
theorem traceEntityNames_append (a b : List ToolCall) :
    traceEntityNames (a ++ b) = traceEntityNames a ++ traceEntityNames b :=
  List.flatMap_append a b _

/-- Entity names of a trace collected over a list. -/
theorem traceEntityNames_flatMap {α : Type} (l : List α) (f : α → List ToolCall) :
    traceEntityNames (l.flatMap f) = l.flatMap (fun x => traceEntityNames (f x)) := by
  unfold traceEntityNames
  rw [List.flatMap_assoc]

/-- C3: in reset mode against a store holding entities, the engine
issues exactly one `delete_entities` call, that call carries the name
of every entity the `read_graph` call returned, and it comes strictly
before every create call of the subsequent rebuild. -/
theorem reset_single_delete_before_creates (L : Lister) (ge : List Entity)
    (ps : List FSItem) (hne : ge ≠ []) :
    (main_trace L true ge ps).countP isDeleteCall = 1
    ∧ (∀ ns, ToolCall.deleteEntities ns ∈ main_trace L true ge ps →
        ns = ge.map (fun e => e.name))
    ∧ callsBefore (main_trace L true ge ps) isDeleteCall isCreateCall := by
  have hrest : ∀ c ∈ (ps.filter
      (fun t => t.isDir && !(startsWithStr "." t.name))).flatMap
      (fun t => index_project_ord L t (PROJECTS_DIR_SEGS ++ [t.name])),
      isCreateCall c = true := by
    intro c hc
    rcases List.mem_flatMap.mp hc with ⟨t, ht, hct⟩
    unfold index_project_ord at hct
    rcases List.mem_cons.mp hct with heq | h
    · subst heq
      rfl
    · exact index_directory_ord_all_creates L t _ _ c h
  have hne2 : ge.isEmpty = false := by
    cases ge with
    | nil => exact absurd rfl hne
    | cons a t => rfl
  have htr : main_trace L true ge ps
      = ToolCall.readGraph
        :: ToolCall.deleteEntities (ge.map (fun e => e.name))
        :: (ps.filter (fun t => t.isDir && !(startsWithStr "." t.name))).flatMap
          (fun t => index_project_ord L t (PROJECTS_DIR_SEGS ++ [t.name])) := by
    unfold main_trace
    rw [hne2]
    simp
  refine ⟨?_, ?_, ?_⟩
  · rw [htr]
    rw [List.countP_cons_of_neg _ _ (by simp [isDeleteCall])]
    rw [List.countP_cons_of_pos _ _ (by rfl)]
    have h0 : List.countP isDeleteCall
        ((ps.filter (fun t => t.isDir && !(startsWithStr "." t.name))).flatMap
          (fun t => index_project_ord L t (PROJECTS_DIR_SEGS ++ [t.name]))) = 0 := by
      rw [List.countP_eq_zero]
      intro c hc
      rw [isCreate_not_delete c (hrest c hc)]
      simp
    rw [h0]
  · intro ns hns
    rw [htr] at hns
    rcases List.mem_cons.mp hns with heq | hns2
    · cases heq
    · rcases List.mem_cons.mp hns2 with heq | hns3
      · injection heq with h5
      · have := hrest _ hns3
        simp [isCreateCall] at this
  · rw [htr]
    show callsBefore
      ([ToolCall.readGraph,
        ToolCall.deleteEntities (ge.map (fun e => e.name))] ++ _)
      isDeleteCall isCreateCall
    apply callsBefore_of_split
    · intro c hc
      rcases List.mem_cons.mp hc with heq | hc2
      · subst heq
        rfl
      · rcases List.mem_cons.mp hc2 with heq | hc3
        · subst heq
          rfl
        · cases hc3
    · intro c hc
      exact isCreate_not_delete c (hrest c hc)

/-- Witness for the C3 theorem: a store holding entities `A` and `B`
and one sample project. -/
theorem reset_single_delete_before_creates_witness :
    egGraphEntities ≠ []
    ∧ ((main_trace idLister true egGraphEntities egProjects).countP isDeleteCall = 1
      ∧ (∀ ns, ToolCall.deleteEntities ns ∈ main_trace idLister true egGraphEntities egProjects →
          ns = egGraphEntities.map (fun e => e.name))
      ∧ callsBefore (main_trace idLister true egGraphEntities egProjects)
          isDeleteCall isCreateCall) :=
  ⟨by decide,
   reset_single_delete_before_creates idLister egGraphEntities egProjects (by decide)⟩

/-- C8: the walker emits the same entity names, up to permutation,
under any two directory-listing orders over the same unchanged tree:
each name is derived deterministically from the filesystem path by
joining the parent entity name with the path segment, so the name set
is listing-order independent. -/
theorem walker_names_listing_invariant (L₁ L₂ : Lister) (t : FSItem) :
    ∀ (fsPath : List String) (parent : String),
    (traceEntityNames (index_directory_ord L₁ t fsPath parent)).Perm
      (traceEntityNames (index_directory_ord L₂ t fsPath parent)) := by
  induction t using fsitemRecMem with
  | hfile n c =>
    intro fsPath parent
    rw [index_directory_ord_file, index_directory_ord_file]
  | hdir n cs ih =>
    intro fsPath parent
    rw [index_directory_ord_dir, index_directory_ord_dir]
    by_cases hex : EXCLUDED_DIRS.contains n = true
    · rw [if_pos hex, if_pos hex]
    · rw [if_neg hex, if_neg hex]
      have hperm : (L₁.ord fsPath cs).Perm (L₂.ord fsPath cs) :=
        (L₁.ord_perm fsPath cs).trans (L₂.ord_perm fsPath cs).symm
      rw [traceEntityNames_append, traceEntityNames_append]
      apply List.Perm.append
      · rw [traceEntityNames_level_calls, traceEntityNames_level_calls]
        apply List.Perm.append
        · unfold level_dir_entities
          exact ((hperm.filter dirChildFilter).map _).map _
        · unfold level_file_entities
          exact ((hperm.filter (fileChildFilter fsPath)).map _).map _
      · rw [traceEntityNames_flatMap, traceEntityNames_flatMap]
        refine List.Perm.trans
          (List.Perm.flatMap_right _ (hperm.filter dirChildFilter)) ?_
        apply List.Perm.flatMap_left
        intro c hc
        have hmem : c ∈ cs :=
          (L₂.ord_perm fsPath cs).subset (List.mem_of_mem_filter hc)
        exact ih c hmem _ _

/-- Witness for the C8 theorem: model order against reversed listing
order over the sample tree. -/
theorem walker_names_listing_invariant_witness :
    (traceEntityNames (index_directory_ord idLister
        (FSItem.dirNode "demo" egTreeKept) ["home", "demo"] "demo")).Perm
      (traceEntityNames (index_directory_ord revLister
        (FSItem.dirNode "demo" egTreeKept) ["home", "demo"] "demo")) :=
  walker_names_listing_invariant idLister revLister
    (FSItem.dirNode "demo" egTreeKept) ["home", "demo"] "demo"
